import Mathlib

/-!
Verification of the ESP32-S3 rock-paper-scissors classifier
(`main.py`: `HTTPServer` and `RealTimeClassifier`).

Python floats are modelled as rationals (`ℚ`), byte buffers as `List Nat`
with entries below 256, exceptions as `Option`/`Except`, and the
single-threaded main loop as a tick function producing an event trace.
-/

namespace RPS

set_option maxRecDepth 8192

/-- Expected tensor length: 224*224*3, the EfficientNetB0 input size
(`input_size = 224` in `RealTimeClassifier.__init__`). -/
def expectedLen : Nat := 224 * 224 * 3

/-- Class names, from `RealTimeClassifier.__init__`:
`['rock', 'paper', 'scissors']`. -/
def class_names : List String := ["rock", "paper", "scissors"]

/-- A classification result dictionary, as built by `process_result` and
stored in `HTTPServer.latest_results`. -/
structure ClassificationResult where
  timestamp : Nat
  probabilities : List ℚ
  predicted_class : Nat
deriving DecidableEq

/-- The initial value of `HTTPServer.latest_results` (line 31 of `main.py`):
`{'timestamp': 0, 'probabilities': [0.33, 0.34, 0.33], 'predicted_class': 0}`. -/
def httpInitialResults : ClassificationResult :=
  { timestamp := 0, probabilities := [mkRat 33 100, mkRat 34 100, mkRat 33 100], predicted_class := 0 }

/-- The fallback probability vector returned by `run_inference` on an
inference exception, and substituted by `process_result` for outputs with
fewer than 3 entries: `[0.33, 0.33, 0.34]`. -/
def fallbackProbs : List ℚ := [mkRat 33 100, mkRat 33 100, mkRat 34 100]

/-! ## Preprocessor (`RealTimeClassifier.preprocess_image`) -/

/-- An input frame: either not a byte buffer (`not isinstance(frame,
(bytearray, bytes))`) or a byte buffer given by its list of byte values. -/
inductive Frame where
  | nonBytes
  | bytes (data : List Nat)

/-- Python `range(0, stop, step)` for `step ≥ 1`, with a non-positive stop
yielding the empty range (Python's negative stop is clamped to 0 here,
which produces the same empty range). -/
def pyRange (stop step : Nat) : List Nat :=
  List.range' 0 ((stop + step - 1) / step) step

/-- Embedding of `preprocess_image`: non-byte input returns all zeros of
the expected length; otherwise bytes are sampled at stride
`max(1, len(frame) // (224*224*3))` over `range(0, len(frame) - 3, step)`,
each sampled triple normalized by 255, and the result padded with zeros or
truncated to exactly `expectedLen`. Indices produced by the range are
always in bounds, so the `getD` defaults are never used. -/
def preprocess_image : Frame → List ℚ
  | .nonBytes => List.replicate expectedLen 0
  | .bytes frame =>
    let step := max 1 (frame.length / expectedLen)
    let processed := (pyRange (frame.length - 3) step).flatMap
      (fun i => [(frame.getD i 0 : ℚ) / 255,
                 (frame.getD (i+1) 0 : ℚ) / 255,
                 (frame.getD (i+2) 0 : ℚ) / 255])
    if processed.length < expectedLen then
      processed ++ List.replicate (expectedLen - processed.length) 0
    else
      processed.take expectedLen

/-! ## Inference and result processing -/

/-- Embedding of `run_inference`: the engine call either yields an output
list or raises (`none`); an exception is caught and replaced by the
fallback vector `[0.33, 0.33, 0.34]`. -/
def run_inference (engineOutput : Option (List ℚ)) : List ℚ :=
  match engineOutput with
  | some output => output
  | none => fallbackProbs

/-- Python `max` on a list: for a nonempty list, the maximum value (the
`[]` case is never reached by the callers, which guard on length). -/
def pymax : List ℚ → ℚ
  | [] => 0
  | x :: xs => xs.foldl max x

/-- Embedding of `process_result`: probabilities are `output[:3]` when the
output has at least 3 entries (else the fixed default), and
`predicted_class` is `output.index(max(output[:3]))` (else 0). -/
def process_result (now : Nat) (output : List ℚ) : ClassificationResult :=
  { timestamp := now
  , probabilities := if 3 ≤ output.length then output.take 3 else fallbackProbs
  , predicted_class :=
      if 3 ≤ output.length then List.indexOf (pymax (output.take 3)) output else 0 }

/-! ## HTTP server request handling (`HTTPServer.handle_client`) -/

/-- Python `str.split(sep)` for a single-character separator: keeps empty
fields, and splitting the empty string yields `[""]`. -/
def splitOnChar (sep : Char) : List Char → List (List Char)
  | [] => [[]]
  | c :: cs =>
    let rest := splitOnChar sep cs
    if c = sep then [] :: rest
    else (c :: rest.headD []) :: rest.tail

/-- Embedding of lines 55-56: `request.split('\n')[0].split(' ')[1]`.
Returns `none` when the first line has no second space-separated field,
modelling the `IndexError` raised by `[1]` there. -/
def parsePath (request : List Char) : Option (List Char) :=
  let requestLine := (splitOnChar (Char.ofNat 10) request).headD []
  (splitOnChar ' ' requestLine).get? 1

/-- The HTML status page built in the default branch of `handle_client`
(lines 78-85); the interpolated value is `latest_results['predicted_class']`,
an integer index. -/
def statusPage (pc : Nat) : String :=
  "<html><body><h1>ESP32-S3 Classifier</h1>" ++ "<p>Status: Running</p>"
    ++ "<p>Latest class: " ++ toString pc ++ "</p>"
    ++ "<p>API Endpoints: <ul>"
    ++ "<li><a href=\"/classify\">/classify</a> - JSON classification results</li>"
    ++ "<li><a href=\"/jpg\">/jpg</a> - Latest camera image</li>"
    ++ "</ul></p>" ++ "</body></html>"

/-- The header sent with the default status page (line 87). -/
def htmlHeader : String := "HTTP/1.1 200 OK\r\nContent-Type: text/html\r\n\r\n"

/-- A response sent to the client before the connection is closed. -/
inductive HttpResponse where
  | json (results : ClassificationResult)
  | image
  | imageError
  | html (page : String)
deriving DecidableEq

/-- Outcome of one accepted exchange: either a response was sent and the
connection closed (line 91), or an exception escaped to the generic
`except Exception` handler (lines 99-100) and no response was sent. -/
inductive ClientOutcome where
  | served (r : HttpResponse)
  | exceptionCaught
deriving DecidableEq

/-- Embedding of the dispatch in `handle_client` (lines 52-91) for an
accepted connection with request bytes `request`, current cached results
`latest`, and `captureOk` telling whether `camera.capture()` succeeds on
the `/jpg` path. -/
def handle_request (request : List Char) (latest : ClassificationResult)
    (captureOk : Bool) : ClientOutcome :=
  match parsePath request with
  | none => .exceptionCaught
  | some path =>
    if path = String.toList "/classify" ∨ path = String.toList "/data"
        ∨ path = String.toList "/api" then
      .served (.json latest)
    else if path = String.toList "/jpg" ∨ path = String.toList "/capture" then
      if captureOk then .served .image else .served .imageError
    else
      .served (.html (statusPage latest.predicted_class))

/-! ## Server port binding (`HTTPServer.__init__`, lines 16-30) -/

/-- Outcome of one `socket.bind` attempt on a given port: success, or an
`OSError` with the given errno. -/
inductive BindOutcome where
  | ok
  | err (errno : Nat)
deriving DecidableEq

/-- Embedding of the binding policy: bind the primary port; on `OSError`
with errno 112 (`EADDRINUSE`) retry once on port 8080, any failure there
propagating; any other errno re-raised. `Except.error e` models an
uncaught exception leaving `__init__`. -/
def serverInitPort (primary : Nat) (bindAttempt : Nat → BindOutcome) : Except Nat Nat :=
  match bindAttempt primary with
  | .ok => .ok primary
  | .err e =>
    if e = 112 then
      match bindAttempt 8080 with
      | .ok => .ok 8080
      | .err e2 => .error e2
    else
      .error e

/-! ## Main loop tick (`run_classification`, lines 269-310) -/

/-- Outcome of `camera.capture()` at the top of a tick: an exception, or a
frame (the empty frame models a falsy return, caught by `if not frame`). -/
inductive CaptureOutcome where
  | err
  | ok (frame : List Nat)

/-- Observable steps of one loop iteration, in program order. -/
inductive Event where
  | captureAttempt
  | sleep (ms : Nat)
  | preprocessStep
  | inferenceStep
  | logTransition
  | updateCache
  | handleClient
  | gcCollect
deriving DecidableEq

/-- State carried across loop iterations: the HTTP server's cached result
slot and `last_class` (initialized to -1). -/
structure LoopState where
  cache : ClassificationResult
  last_class : Int
deriving DecidableEq

/-- One iteration of the `while True` loop. A capture exception or falsy
frame prints, sleeps 100 ms and `continue`s; otherwise the frame is
preprocessed, inference runs (`engine` returning `none` models a raise,
replaced by the fallback in `run_inference`), the result is processed,
the transition is logged when the class changed, the cache is updated
via `update_results`, `handle_client` is driven, and the tick ends with
`gc.collect()` and a 50 ms sleep. -/
def tick (cap : CaptureOutcome) (engine : List ℚ → Option (List ℚ)) (now : Nat)
    (s : LoopState) : LoopState × List Event :=
  match cap with
  | .err => (s, [.captureAttempt, .sleep 100])
  | .ok frame =>
    if frame.isEmpty then
      (s, [.captureAttempt, .sleep 100])
    else
      let input := preprocess_image (.bytes frame)
      if input.isEmpty then
        (s, [.captureAttempt, .preprocessStep, .sleep 50])
      else
        let output := run_inference (engine input)
        let result := process_result now output
        let logEvs := if (result.predicted_class : Int) ≠ s.last_class
          then [Event.logTransition] else []
        ({ cache := result, last_class := (result.predicted_class : Int) },
          [.captureAttempt, .preprocessStep, .inferenceStep] ++ logEvs ++
            [.updateCache, .handleClient, .gcCollect, .sleep 50])

/-! ## Helper lemmas about `pymax` and `indexOf` -/

/-- The predicate stated by the spec: `i` is the index of the maximum of
`probs`, with ties resolved to the lowest index. -/
def firstArgmax (probs : List ℚ) (i : Nat) : Prop :=
  i < probs.length ∧
  (∀ x ∈ probs, x ≤ probs.getD i 0) ∧
  (∀ j < i, probs.getD j 0 < probs.getD i 0)

instance (probs : List ℚ) (i : Nat) : Decidable (firstArgmax probs i) :=
  decidable_of_iff
    (i < probs.length ∧
      (∀ x ∈ probs, x ≤ probs.getD i 0) ∧
      (∀ j < i, probs.getD j 0 < probs.getD i 0))
    Iff.rfl

lemma foldl_max_mem (x : ℚ) (xs : List ℚ) : xs.foldl max x ∈ x :: xs := by
  induction xs generalizing x with
  | nil => simp
  | cons y ys ih =>
    rw [List.foldl_cons]
    rcases List.mem_cons.mp (ih (max x y)) with h1 | h1
    · rcases max_choice x y with hc | hc <;> rw [h1, hc] <;> simp
    · exact List.mem_cons_of_mem _ (List.mem_cons_of_mem _ h1)

lemma le_foldl_max (x : ℚ) (xs : List ℚ) : ∀ a ∈ x :: xs, a ≤ xs.foldl max x := by
  induction xs generalizing x with
  | nil =>
    intro a ha
    rw [List.mem_singleton] at ha
    simp [ha]
  | cons y ys ih =>
    intro a ha
    rw [List.foldl_cons]
    have hhead : max x y ≤ ys.foldl max (max x y) :=
      ih (max x y) (max x y) (List.mem_cons_self _ _)
    rcases List.mem_cons.mp ha with h | h
    · rw [h]
      exact le_trans (le_max_left x y) hhead
    · rcases List.mem_cons.mp h with h2 | h2
      · rw [h2]
        exact le_trans (le_max_right x y) hhead
      · exact ih (max x y) a (List.mem_cons_of_mem _ h2)

lemma pymax_mem {l : List ℚ} (h : l ≠ []) : pymax l ∈ l := by
  cases l with
  | nil => exact absurd rfl h
  | cons x xs => exact foldl_max_mem x xs

lemma le_pymax {l : List ℚ} (a : ℚ) (ha : a ∈ l) : a ≤ pymax l := by
  cases l with
  | nil => simp at ha
  | cons x xs => exact le_foldl_max x xs a ha

lemma getD_ne_of_lt_indexOf {a : ℚ} {l : List ℚ} {j : Nat}
    (h : j < List.indexOf a l) : l.getD j 0 ≠ a := by
  induction l generalizing j with
  | nil => simp [List.indexOf] at h
  | cons x xs ih =>
    by_cases hx : x = a
    · rw [List.indexOf_cons_eq _ hx] at h
      omega
    · rw [List.indexOf_cons_ne _ hx] at h
      cases j with
      | zero => simpa using hx
      | succ k => simpa using ih (Nat.lt_of_succ_lt_succ h)

/-- Core property of `process_result` for engine outputs with at least 3
entries: the stored probabilities are `output[:3]`, and the stored
`predicted_class` is below 3 and is the lowest argmax of `output[:3]`. -/
lemma process_result_spec (now : Nat) (output : List ℚ) (h : 3 ≤ output.length) :
    (process_result now output).probabilities = output.take 3 ∧
    (process_result now output).predicted_class < 3 ∧
    firstArgmax (output.take 3) (process_result now output).predicted_class := by
  have hlen : (output.take 3).length = 3 := by
    rw [List.length_take]
    omega
  have htne : output.take 3 ≠ [] := by
    intro hc
    rw [hc] at hlen
    simp at hlen
  have hmem : pymax (output.take 3) ∈ output.take 3 := pymax_mem htne
  have hidx : ∀ m : ℚ, m ∈ output.take 3 →
      List.indexOf m output = List.indexOf m (output.take 3) := by
    intro m hm
    conv_lhs => rw [← List.take_append_drop 3 output]
    exact List.indexOf_append_of_mem hm
  have hprob : (process_result now output).probabilities = output.take 3 := by
    simp [process_result, h]
  have hpc : (process_result now output).predicted_class
      = List.indexOf (pymax (output.take 3)) (output.take 3) := by
    simp [process_result, h, hidx _ hmem]
  have hibound : List.indexOf (pymax (output.take 3)) (output.take 3)
      < (output.take 3).length :=
    List.indexOf_lt_length.mpr hmem
  have hlt : List.indexOf (pymax (output.take 3)) (output.take 3) < 3 := by
    omega
  have hget : (output.take 3).getD (List.indexOf (pymax (output.take 3)) (output.take 3)) 0
      = pymax (output.take 3) := by
    rw [List.getD_eq_getElem _ _ hibound]
    exact List.getElem_indexOf hibound
  refine ⟨hprob, by rw [hpc]; exact hlt, ?_⟩
  rw [hpc]
  refine ⟨by omega, ?_, ?_⟩
  · intro x hx
    rw [hget]
    exact le_pymax x hx
  · intro j hj
    rw [hget]
    have hjlt : j < (output.take 3).length := lt_trans hj hibound
    have hmemj : (output.take 3).getD j 0 ∈ output.take 3 := by
      rw [List.getD_eq_getElem _ _ hjlt]
      exact List.getElem_mem hjlt
    exact lt_of_le_of_ne (le_pymax _ hmemj) (getD_ne_of_lt_indexOf hj)

/-! ## Claim theorems -/

/-- C1 counterexample: the `ResultCache`'s initial safe default
(`HTTPServer.__init__`, line 31) has probabilities `[0.33, 0.34, 0.33]`
of the expected length 3, yet its `predicted_class` is 0 while the
maximum lies at index 1, so the claimed invariant fails on it. -/
theorem initial_default_violates_argmax :
    httpInitialResults.probabilities.length = 3 ∧
    ¬ firstArgmax httpInitialResults.probabilities httpInitialResults.predicted_class := by
  constructor
  · rfl
  · decide

/-- C1 (amended): results built by `process_result` from an engine output
with at least 3 entries satisfy the invariant: `predicted_class` is in
`[0, 3)` and is the lowest index of the maximum of the stored
probabilities. The short-output degraded result and the cache's initial
default instead fix `predicted_class = 0`, which is not the argmax of
their 3-entry probability lists. -/
theorem argmax_invariant_amended :
    (∀ now output, 3 ≤ output.length →
      (process_result now output).predicted_class < 3 ∧
      firstArgmax (process_result now output).probabilities
        (process_result now output).predicted_class) ∧
    (∀ now output, output.length < 3 →
      process_result now output =
        { timestamp := now, probabilities := fallbackProbs, predicted_class := 0 }) ∧
    ¬ firstArgmax fallbackProbs 0 ∧
    ¬ firstArgmax httpInitialResults.probabilities httpInitialResults.predicted_class := by
  refine ⟨?_, ?_, by decide, by decide⟩
  · intro now output h
    obtain ⟨hprob, hlt, harg⟩ := process_result_spec now output h
    exact ⟨hlt, by rw [hprob]; exact harg⟩
  · intro now output h
    simp [process_result, Nat.not_le.mpr h, Nat.lt_asymm h]

/-- Witness for C1 (amended), at the concrete outputs `[1/2, 1/4, 1/4]`
(length 3) and `[1/2]` (length 1). -/
theorem argmax_invariant_amended_witness :
    ((process_result 5 [1/2, 1/4, 1/4]).predicted_class < 3 ∧
      firstArgmax (process_result 5 [1/2, 1/4, 1/4]).probabilities
        (process_result 5 [1/2, 1/4, 1/4]).predicted_class) ∧
    process_result 5 [1/2] =
      { timestamp := 5, probabilities := fallbackProbs, predicted_class := 0 } :=
  ⟨argmax_invariant_amended.1 5 [1/2, 1/4, 1/4] (by decide),
   argmax_invariant_amended.2.1 5 [1/2] (by decide)⟩

/-- C10: for every engine output with at least 3 entries (longer lists
included), `process_result` stores exactly the first 3 entries as the
probabilities, and `predicted_class` is below 3 and equals the first
index at which the maximum of those first 3 entries occurs. -/
theorem process_result_take3 (now : Nat) (output : List ℚ) (h : 3 ≤ output.length) :
    (process_result now output).probabilities = output.take 3 ∧
    (process_result now output).predicted_class < 3 ∧
    firstArgmax (output.take 3) (process_result now output).predicted_class :=
  process_result_spec now output h

/-- Witness for C10 at the concrete 4-entry output `[1/4, 3/4, 1/2, 9/10]`. -/
theorem process_result_take3_witness :
    (process_result 1 [1/4, 3/4, 1/2, 9/10]).probabilities = [1/4, 3/4, 1/2] ∧
    (process_result 1 [1/4, 3/4, 1/2, 9/10]).predicted_class < 3 ∧
    firstArgmax [1/4, 3/4, 1/2] (process_result 1 [1/4, 3/4, 1/2, 9/10]).predicted_class :=
  process_result_take3 1 [1/4, 3/4, 1/2, 9/10] (by decide)

/-- C7: when the engine call raises, `run_inference` catches the failure
and returns the fixed fallback vector, so the result built that tick has
exactly 3 probabilities summing to 1 and a `predicted_class` in `[0, 3)`;
no exception leaves the classification step. -/
theorem inference_fallback_result (now : Nat) :
    run_inference none = fallbackProbs ∧
    (process_result now (run_inference none)).probabilities.length = 3 ∧
    (process_result now (run_inference none)).probabilities.sum = 1 ∧
    (process_result now (run_inference none)).predicted_class < 3 := by
  have hlen : 3 ≤ fallbackProbs.length := by decide
  have hp : (process_result now (run_inference none)).probabilities = fallbackProbs := by
    have ht : fallbackProbs.take 3 = fallbackProbs := by decide
    simp [process_result, run_inference, ht, hlen]
  have hsum : fallbackProbs.sum = 1 := by
    simp [fallbackProbs, Rat.mkRat_eq_div]
    norm_num
  have hpc : (process_result now (run_inference none)).predicted_class = 2 := by
    have hi : List.indexOf (pymax (fallbackProbs.take 3)) fallbackProbs = 2 := by decide
    simp [process_result, run_inference, hi, hlen]
  refine ⟨rfl, ?_, ?_, ?_⟩
  · rw [hp]
    rfl
  · rw [hp, hsum]
  · rw [hpc]
    omega

/-- C9: when the engine call raises, the tick's result is exactly the
fallback `[0.33, 0.33, 0.34]` with `predicted_class = 2`, the
`'scissors'` index — not the class-0 default used for short outputs —
because the fallback's maximum 0.34 sits at index 2. -/
theorem inference_failure_predicts_scissors (now : Nat) :
    process_result now (run_inference none) =
      { timestamp := now
      , probabilities := [mkRat 33 100, mkRat 33 100, mkRat 34 100]
      , predicted_class := 2 } ∧
    class_names.getD 2 "" = "scissors" ∧ (2 : Nat) ≠ 0 := by
  refine ⟨?_, rfl, by decide⟩
  have hp : fallbackProbs.take 3 = [mkRat 33 100, mkRat 33 100, mkRat 34 100] := by decide
  have h2 : List.indexOf (pymax (fallbackProbs.take 3)) fallbackProbs = 2 := by decide
  simp [process_result, run_inference, hp, h2]
  decide

/-! ## Substring machinery for the status-page claims -/

/-- Boolean test that `s` is a prefix of the second list. -/
def startsWithChars : List Char → List Char → Bool
  | [], _ => true
  | _ :: _, [] => false
  | c :: cs, d :: ds => c == d && startsWithChars cs ds

/-- Boolean test that `needle` occurs contiguously inside the haystack. -/
def hasSub (needle : List Char) : List Char → Bool
  | [] => needle.isEmpty
  | c :: cs => startsWithChars needle (c :: cs) || hasSub needle cs

lemma startsWithChars_append (s b : List Char) : startsWithChars s (s ++ b) = true := by
  induction s with
  | nil => rfl
  | cons c cs ih => simp [startsWithChars, ih]

lemma hasSub_of_startsWithChars (s l : List Char) (h : startsWithChars s l = true) :
    hasSub s l = true := by
  cases l with
  | nil =>
    cases s with
    | nil => rfl
    | cons c cs => simp [startsWithChars] at h
  | cons c cs => simp [hasSub, h]

lemma hasSub_self_append (s b : List Char) : hasSub s (s ++ b) = true :=
  hasSub_of_startsWithChars _ _ (startsWithChars_append s b)

lemma hasSub_append_left (a : List Char) {s l : List Char} (h : hasSub s l = true) :
    hasSub s (a ++ l) = true := by
  induction a with
  | nil => simpa using h
  | cons c cs ih => simp [hasSub, ih]

/-- The default status page always contains the decimal rendering of the
cached `predicted_class` (the integer interpolated at line 80). -/
lemma statusPage_contains_class_index (pc : Nat) :
    hasSub (toString pc).toList (statusPage pc).toList = true := by
  have h : (statusPage pc).toList =
      "<html><body><h1>ESP32-S3 Classifier</h1>".toList ++
        ("<p>Status: Running</p>".toList ++
          ("<p>Latest class: ".toList ++
            ((toString pc).toList ++
              ("</p>".toList ++
                ("<p>API Endpoints: <ul>".toList ++
                  ("<li><a href=\"/classify\">/classify</a> - JSON classification results</li>".toList ++
                    ("<li><a href=\"/jpg\">/jpg</a> - Latest camera image</li>".toList ++
                      ("</ul></p>".toList ++ "</body></html>".toList)))))))) := by
    simp only [statusPage, String.toList, String.data_append, List.append_assoc]
  rw [h]
  exact hasSub_append_left _ (hasSub_append_left _ (hasSub_append_left _
    (hasSub_self_append _ _)))

/-! ## Claim theorems for the Responder -/

/-- C3 counterexample: a request whose first line has no second
space-separated field (here the single word `xyz`) raises `IndexError` at
`request_line.split(' ')[1]`; the generic handler catches it and the
exchange ends with no response at all, not with the default-route page. -/
theorem malformed_request_no_response :
    handle_request (String.toList "xyz") httpInitialResults true
      = ClientOutcome.exceptionCaught ∧
    ClientOutcome.exceptionCaught ≠ ClientOutcome.served
      (HttpResponse.html (statusPage httpInitialResults.predicted_class)) := by
  constructor
  · rfl
  · intro h
    cases h

/-- C3 (amended): a request from which a path is extracted but matches no
known route is served the default status page; a request from which no
path can be extracted (no second space-separated field on the first line)
aborts the exchange via the generic exception handler with no response. -/
theorem request_routing (request : List Char) (latest : ClassificationResult) (cap : Bool) :
    (parsePath request = none →
      handle_request request latest cap = ClientOutcome.exceptionCaught) ∧
    (∀ p, parsePath request = some p →
      p ≠ String.toList "/classify" → p ≠ String.toList "/data" →
      p ≠ String.toList "/api" → p ≠ String.toList "/jpg" →
      p ≠ String.toList "/capture" →
      handle_request request latest cap =
        ClientOutcome.served (HttpResponse.html (statusPage latest.predicted_class))) := by
  constructor
  · intro h
    simp [handle_request, h]
  · intro p hp h1 h2 h3 h4 h5
    have hj : ¬ (p = String.toList "/classify" ∨ p = String.toList "/data"
        ∨ p = String.toList "/api") := by
      push_neg
      exact ⟨h1, h2, h3⟩
    have hc : ¬ (p = String.toList "/jpg" ∨ p = String.toList "/capture") := by
      push_neg
      exact ⟨h4, h5⟩
    simp only [handle_request, hp]
    rw [if_neg hj, if_neg hc]

/-- Witness for C3 (amended): the unparsable request `xyz` is dropped
without a response, and `GET / HTTP/1.1` is served the default page. -/
theorem request_routing_witness :
    handle_request (String.toList "xyz") httpInitialResults true
      = ClientOutcome.exceptionCaught ∧
    handle_request (String.toList "GET / HTTP/1.1") httpInitialResults true
      = ClientOutcome.served (HttpResponse.html (statusPage 0)) :=
  ⟨(request_routing (String.toList "xyz") httpInitialResults true).1 (by decide),
   (request_routing (String.toList "GET / HTTP/1.1") httpInitialResults true).2
     (String.toList "/") (by decide) (by decide) (by decide) (by decide) (by decide)
     (by decide)⟩

/-- C4 counterexample: with the initial cached result (predicted class 0,
name `rock`), the default status page served for an unmatched path does
not contain the class name string at all; it shows the integer index. -/
theorem status_page_lacks_class_name :
    handle_request (String.toList "GET / HTTP/1.1") httpInitialResults true
      = ClientOutcome.served
          (HttpResponse.html (statusPage httpInitialResults.predicted_class)) ∧
    class_names.getD httpInitialResults.predicted_class "" = "rock" ∧
    hasSub (String.toList "rock")
      (statusPage httpInitialResults.predicted_class).toList = false := by
  refine ⟨rfl, rfl, ?_⟩
  decide

/-- C4 (amended): every request with an extractable path matching none of
the five known routes is answered with status 200 (the fixed HTML header)
and the fixed status page, and that page contains the decimal rendering
of the cached `predicted_class` index — not the class name string. -/
theorem unmatched_path_status_page (request : List Char) (latest : ClassificationResult)
    (cap : Bool) (p : List Char) (hp : parsePath request = some p)
    (h1 : p ≠ String.toList "/classify") (h2 : p ≠ String.toList "/data")
    (h3 : p ≠ String.toList "/api") (h4 : p ≠ String.toList "/jpg")
    (h5 : p ≠ String.toList "/capture") :
    handle_request request latest cap =
      ClientOutcome.served (HttpResponse.html (statusPage latest.predicted_class)) ∧
    hasSub (toString latest.predicted_class).toList
      (statusPage latest.predicted_class).toList = true ∧
    startsWithChars (String.toList "HTTP/1.1 200 OK") htmlHeader.toList = true := by
  refine ⟨?_, statusPage_contains_class_index _, by decide⟩
  have hj : ¬ (p = String.toList "/classify" ∨ p = String.toList "/data"
      ∨ p = String.toList "/api") := by
    push_neg
    exact ⟨h1, h2, h3⟩
  have hc : ¬ (p = String.toList "/jpg" ∨ p = String.toList "/capture") := by
    push_neg
    exact ⟨h4, h5⟩
  simp only [handle_request, hp]
  rw [if_neg hj, if_neg hc]

/-- Witness for C4 (amended) at the request `GET /status HTTP/1.1`. -/
theorem unmatched_path_status_page_witness :
    handle_request (String.toList "GET /status HTTP/1.1") httpInitialResults true =
      ClientOutcome.served (HttpResponse.html (statusPage 0)) ∧
    hasSub (toString (0 : Nat)).toList (statusPage 0).toList = true ∧
    startsWithChars (String.toList "HTTP/1.1 200 OK") htmlHeader.toList = true :=
  unmatched_path_status_page (String.toList "GET /status HTTP/1.1") httpInitialResults
    true (String.toList "/status") (by decide) (by decide) (by decide) (by decide)
    (by decide) (by decide)

/-! ## Preprocessor theorems -/

lemma byte_div_bounds {b : Nat} (hb : b ≤ 255) :
    0 ≤ (b : ℚ) / 255 ∧ (b : ℚ) / 255 ≤ 1 := by
  constructor
  · positivity
  · rw [div_le_one (by norm_num)]
    exact_mod_cast hb

lemma getD_le_255 {frame : List Nat} (hb : ∀ b ∈ frame, b ≤ 255) (k : Nat) :
    frame.getD k 0 ≤ 255 := by
  by_cases hk : k < frame.length
  · exact hb _ (by rw [List.getD_eq_getElem _ _ hk]; exact List.getElem_mem hk)
  · rw [List.getD_eq_default _ _ (Nat.le_of_not_lt hk)]
    omega

/-- C2: `preprocess_image` always returns exactly `224*224*3` values; for
byte-buffer inputs (all byte values at most 255) every value lies in
`[0, 1]`, and a non-byte-buffer input yields the all-zero list of that
length. -/
theorem preprocess_output_contract :
    (∀ frame : List Nat, (∀ b ∈ frame, b ≤ 255) →
      (preprocess_image (.bytes frame)).length = expectedLen ∧
      ∀ x ∈ preprocess_image (.bytes frame), 0 ≤ x ∧ x ≤ 1) ∧
    (preprocess_image .nonBytes = List.replicate expectedLen 0 ∧
      (preprocess_image .nonBytes).length = expectedLen) := by
  refine ⟨?_, rfl, List.length_replicate _ _⟩
  intro frame hb
  simp only [preprocess_image]
  set processed := (pyRange (frame.length - 3) (max 1 (frame.length / expectedLen))).flatMap
    (fun i => [(frame.getD i 0 : ℚ) / 255,
               (frame.getD (i+1) 0 : ℚ) / 255,
               (frame.getD (i+2) 0 : ℚ) / 255]) with hproc
  have hmem : ∀ x ∈ processed, 0 ≤ x ∧ x ≤ 1 := by
    intro x hx
    rw [hproc, List.mem_flatMap] at hx
    obtain ⟨i, _, hmem3⟩ := hx
    simp only [List.mem_cons, List.not_mem_nil, or_false] at hmem3
    rcases hmem3 with h | h | h <;> rw [h] <;>
      exact byte_div_bounds (getD_le_255 hb _)
  split
  · next hlt =>
    constructor
    · rw [List.length_append, List.length_replicate]
      omega
    · intro x hx
      rcases List.mem_append.mp hx with h | h
      · exact hmem x h
      · rw [List.eq_of_mem_replicate h]
        norm_num
  · next hge =>
    constructor
    · rw [List.length_take]
      omega
    · intro x hx
      exact hmem x (List.mem_of_mem_take hx)

/-- Witness for C2 at the concrete 4-byte frame `[7, 200, 255, 3]`. -/
theorem preprocess_output_contract_witness :
    (∀ b ∈ [7, 200, 255, 3], b ≤ 255) ∧
    ((preprocess_image (.bytes [7, 200, 255, 3])).length = expectedLen ∧
      ∀ x ∈ preprocess_image (.bytes [7, 200, 255, 3]), 0 ≤ x ∧ x ≤ 1) :=
  ⟨by decide, preprocess_output_contract.1 [7, 200, 255, 3] (by decide)⟩

/-! ## Main-loop tick theorems -/

/-- C5 counterexample: in a tick whose capture raises, the loop pauses and
`continue`s; the trace of that tick contains neither a cache update nor a
responder drive, contradicting the claim that step 6 still runs. -/
theorem capture_failure_skips_rest_of_tick :
    tick .err (fun _ => none) 0 { cache := httpInitialResults, last_class := -1 } =
      ({ cache := httpInitialResults, last_class := -1 },
        [Event.captureAttempt, Event.sleep 100]) ∧
    Event.updateCache ∉
      (tick .err (fun _ => none) 0 { cache := httpInitialResults, last_class := -1 }).2 ∧
    Event.handleClient ∉
      (tick .err (fun _ => none) 0 { cache := httpInitialResults, last_class := -1 }).2 := by
  refine ⟨rfl, ?_, ?_⟩ <;> decide

/-- C5 (amended): on a capture exception or a falsy frame the tick prints,
pauses 100 ms and continues to the next iteration: no preprocessing, no
inference, and also no cache update and no responder drive happen in that
tick; the cached result is left unchanged. -/
theorem capture_failure_tick (engine : List ℚ → Option (List ℚ)) (now : Nat)
    (s : LoopState) :
    tick .err engine now s = (s, [Event.captureAttempt, Event.sleep 100]) ∧
    tick (.ok []) engine now s = (s, [Event.captureAttempt, Event.sleep 100]) ∧
    Event.updateCache ∉ [Event.captureAttempt, Event.sleep 100] ∧
    Event.handleClient ∉ [Event.captureAttempt, Event.sleep 100] ∧
    Event.preprocessStep ∉ [Event.captureAttempt, Event.sleep 100] ∧
    Event.inferenceStep ∉ [Event.captureAttempt, Event.sleep 100] := by
  refine ⟨rfl, rfl, ?_, ?_, ?_, ?_⟩ <;> decide

/-- C8: whenever a tick drives the responder, the cache update occurs
strictly earlier in that tick's trace, and the cache the responder sees
is exactly the result computed in that same tick (single-slot atomic
update, no partial visibility). -/
theorem cache_updated_before_responder (cap : CaptureOutcome)
    (engine : List ℚ → Option (List ℚ)) (now : Nat) (s : LoopState)
    (h : Event.handleClient ∈ (tick cap engine now s).2) :
    ∃ i j, i < j ∧
      (tick cap engine now s).2.get? i = some Event.updateCache ∧
      (tick cap engine now s).2.get? j = some Event.handleClient ∧
      ∃ frame, cap = .ok frame ∧
        (tick cap engine now s).1.cache =
          process_result now (run_inference (engine (preprocess_image (.bytes frame)))) := by
  cases cap with
  | err => simp [tick] at h
  | ok frame =>
    by_cases hf : frame.isEmpty
    · simp [tick, hf] at h
    · by_cases hi : (preprocess_image (.bytes frame)).isEmpty
      · simp [tick, hf, hi] at h
      · by_cases hl : ((process_result now
            (run_inference (engine (preprocess_image (.bytes frame))))).predicted_class : Int)
            ≠ s.last_class
        · refine ⟨4, 5, by omega, ?_, ?_, frame, rfl, ?_⟩ <;>
            simp [tick, hf, hi, hl]
        · refine ⟨3, 4, by omega, ?_, ?_, frame, rfl, ?_⟩ <;>
            simp [tick, hf, hi, hl]

/-- Witness for C8: a tick with a 1-byte frame and a raising engine drives
the responder after updating the cache. -/
theorem cache_updated_before_responder_witness :
    ∃ i j, i < j ∧
      (tick (.ok [0]) (fun _ => none) 0
        { cache := httpInitialResults, last_class := -1 }).2.get? i
        = some Event.updateCache ∧
      (tick (.ok [0]) (fun _ => none) 0
        { cache := httpInitialResults, last_class := -1 }).2.get? j
        = some Event.handleClient ∧
      ∃ frame, CaptureOutcome.ok [0] = CaptureOutcome.ok frame ∧
        (tick (.ok [0]) (fun _ => none) 0
          { cache := httpInitialResults, last_class := -1 }).1.cache =
          process_result 0 (run_inference ((fun _ => none) (preprocess_image (.bytes frame)))) :=
  cache_updated_before_responder (.ok [0]) (fun _ => none) 0
    { cache := httpInitialResults, last_class := -1 } (by decide)

/-! ## Port-binding theorem -/

/-- C6: binding the primary port succeeds directly; an address-in-use
failure (errno 112) retries exactly once on the fixed alternate port 8080,
whose own failure propagates; any other errno propagates immediately. -/
theorem bind_policy (primary : Nat) (bindAttempt : Nat → BindOutcome) :
    (bindAttempt primary = .ok → serverInitPort primary bindAttempt = .ok primary) ∧
    (∀ e, bindAttempt primary = .err e → e ≠ 112 →
      serverInitPort primary bindAttempt = .error e) ∧
    (bindAttempt primary = .err 112 → bindAttempt 8080 = .ok →
      serverInitPort primary bindAttempt = .ok 8080) ∧
    (∀ e2, bindAttempt primary = .err 112 → bindAttempt 8080 = .err e2 →
      serverInitPort primary bindAttempt = .error e2) := by
  refine ⟨?_, ?_, ?_, ?_⟩
  · intro h
    simp [serverInitPort, h]
  · intro e h hne
    simp [serverInitPort, h, hne]
  · intro h h8
    simp [serverInitPort, h, h8]
  · intro e2 h h8
    simp [serverInitPort, h, h8]

/-- Witness for C6 over four concrete bind environments: success, failure
with a non-112 errno, in-use then alternate success, in-use twice. -/
theorem bind_policy_witness :
    serverInitPort 80 (fun _ => BindOutcome.ok) = Except.ok 80 ∧
    serverInitPort 80 (fun _ => BindOutcome.err 13) = Except.error 13 ∧
    serverInitPort 80 (fun p => if p = 80 then BindOutcome.err 112 else BindOutcome.ok)
      = Except.ok 8080 ∧
    serverInitPort 80 (fun _ => BindOutcome.err 112) = Except.error 112 :=
  ⟨(bind_policy 80 _).1 rfl,
   (bind_policy 80 _).2.1 13 rfl (by decide),
   (bind_policy 80 _).2.2.1 rfl rfl,
   (bind_policy 80 _).2.2.2 112 rfl rfl⟩

end RPS
